import Mathlib

/-!
# Verification of the RAG system's freshness mechanism and session loop

Shallow embedding of `src/rag.py` (big-dust/rag-ai-chat): the corpus
fingerprinting (`_get_documents_hash`, backed by `hashlib.sha256`), the
build-or-load decision (`_build_or_load_index`), the query pipeline
configuration (`_create_query_engine`, `query`) and the interactive
session loop (`__main__`).
-/

set_option maxRecDepth 100000

namespace RagChat

/-! ## SHA-256 (embedding of `hashlib.sha256` as used by `_get_documents_hash`)

Bytes are `Nat`s below 256; 32-bit words are `Nat`s reduced mod `2^32`. -/

/-- Reduce to a 32-bit word. -/
def w32 (n : Nat) : Nat := n % 4294967296

/-- Rotate the 32-bit word `x` right by `n` places, expressed through division
and remainder: the low `n` bits wrap around to the top. -/
def rotr (x n : Nat) : Nat := x / 2 ^ n + x % 2 ^ n * 2 ^ (32 - n)

/-- The 64 SHA-256 round constants, in decimal. -/
def shaK : List Nat :=
  [1116352408, 1899447441, 3049323471, 3921009573, 961987163,
   1508970993, 2453635748, 2870763221, 3624381080, 310598401,
   607225278, 1426881987, 1925078388, 2162078206, 2614888103,
   3248222580, 3835390401, 4022224774, 264347078, 604807628,
   770255983, 1249150122, 1555081692, 1996064986, 2554220882,
   2821834349, 2952996808, 3210313671, 3336571891, 3584528711,
   113926993, 338241895, 666307205, 773529912, 1294757372,
   1396182291, 1695183700, 1986661051, 2177026350, 2456956037,
   2730485921, 2820302411, 3259730800, 3345764771, 3516065817,
   3600352804, 4094571909, 275423344, 430227734, 506948616,
   659060556, 883997877, 958139571, 1322822218, 1537002063,
   1747873779, 1955562222, 2024104815, 2227730452, 2361852424,
   2428436474, 2756734187, 3204031479, 3329325298]

/-- The eight 32-bit working variables of the SHA-256 compression function. -/
structure SHA256State where
  a : Nat
  b : Nat
  c : Nat
  d : Nat
  e : Nat
  f : Nat
  g : Nat
  h : Nat
deriving DecidableEq

/-- The initial SHA-256 hash value, in decimal. -/
def initHash : SHA256State :=
  ⟨1779033703, 3144134277, 1013904242, 2773480762,
   1359893119, 2600822924, 528734635, 1541459225⟩

def smallSigma0 (x : Nat) : Nat := rotr x 7 ^^^ rotr x 18 ^^^ (x >>> 3)

def smallSigma1 (x : Nat) : Nat := rotr x 17 ^^^ rotr x 19 ^^^ (x >>> 10)

/-- One extension step of the message schedule; the word list is kept newest-first. -/
def scheduleStep (ws : List Nat) : List Nat :=
  w32 (smallSigma1 (ws.getD 1 0) + ws.getD 6 0 + smallSigma0 (ws.getD 14 0) + ws.getD 15 0) :: ws

/-- Full 64-word message schedule of a 16-word block. -/
def schedule (block : List Nat) : List Nat :=
  ((List.range 48).foldl (fun ws _ => scheduleStep ws) block.reverse).reverse

/-- One SHA-256 round. -/
def shaRound (st : SHA256State) (k : Nat) (w : Nat) : SHA256State :=
  let s1 := rotr st.e 6 ^^^ rotr st.e 11 ^^^ rotr st.e 25
  let ch := (st.e &&& st.f) ^^^ ((st.e ^^^ 4294967295) &&& st.g)
  let temp1 := w32 (st.h + s1 + ch + k + w)
  let s0 := rotr st.a 2 ^^^ rotr st.a 13 ^^^ rotr st.a 22
  let maj := (st.a &&& st.b) ^^^ (st.a &&& st.c) ^^^ (st.b &&& st.c)
  let temp2 := w32 (s0 + maj)
  ⟨w32 (temp1 + temp2), st.a, st.b, st.c, w32 (st.d + temp1), st.e, st.f, st.g⟩

/-- Compress one 16-word block into the running hash state. -/
def compressBlock (hs : SHA256State) (block : List Nat) : SHA256State :=
  let fin := (shaK.zip (schedule block)).foldl (fun st kw => shaRound st kw.1 kw.2) hs
  ⟨w32 (hs.a + fin.a), w32 (hs.b + fin.b), w32 (hs.c + fin.c), w32 (hs.d + fin.d),
   w32 (hs.e + fin.e), w32 (hs.f + fin.f), w32 (hs.g + fin.g), w32 (hs.h + fin.h)⟩

/-- Big-endian bytes to 32-bit words. -/
def bytesToWords : List Nat → List Nat
  | b0 :: b1 :: b2 :: b3 :: rest => (((b0 * 256 + b1) * 256 + b2) * 256 + b3) :: bytesToWords rest
  | _ => []

/-- The 8-byte big-endian encoding of the bit length. -/
def lenBytes (n : Nat) : List Nat :=
  [n / 2 ^ 56 % 256, n / 2 ^ 48 % 256, n / 2 ^ 40 % 256, n / 2 ^ 32 % 256,
   n / 2 ^ 24 % 256, n / 2 ^ 16 % 256, n / 2 ^ 8 % 256, n % 256]

/-- SHA-256 padding: append `0x80`, zeros, and the 64-bit message bit length. -/
def padMessage (msg : List Nat) : List Nat :=
  msg ++ 128 :: List.replicate ((64 - (msg.length + 9) % 64) % 64) 0 ++ lenBytes (msg.length * 8)

/-- Split a byte list into 64-byte blocks; the fuel argument bounds the recursion
and is structurally decreasing so that the definition reduces in the kernel. -/
def chunk64Fuel : Nat → List Nat → List (List Nat)
  | 0, _ => []
  | _, [] => []
  | fuel + 1, x :: xs => ((x :: xs).take 64) :: chunk64Fuel fuel ((x :: xs).drop 64)

/-- Split a byte list into 64-byte blocks. -/
def chunk64 (l : List Nat) : List (List Nat) := chunk64Fuel l.length l

/-- The eight 32-bit words of the SHA-256 digest of a byte list. -/
def sha256words (msg : List Nat) : List Nat :=
  let fin := (chunk64 (padMessage msg)).foldl (fun st b => compressBlock st (bytesToWords b)) initHash
  [fin.a, fin.b, fin.c, fin.d, fin.e, fin.f, fin.g, fin.h]

/-- A hex nibble as a lowercase character, as `hexdigest` prints it. -/
def hexChar (n : Nat) : Char := if n < 10 then Char.ofNat (48 + n) else Char.ofNat (87 + n)

/-- A 32-bit word as 8 lowercase hex characters. -/
def wordHex (n : Nat) : List Char :=
  [hexChar (n / 16 ^ 7 % 16), hexChar (n / 16 ^ 6 % 16), hexChar (n / 16 ^ 5 % 16),
   hexChar (n / 16 ^ 4 % 16), hexChar (n / 16 ^ 3 % 16), hexChar (n / 16 ^ 2 % 16),
   hexChar (n / 16 % 16), hexChar (n % 16)]

/-- `hashlib.sha256(msg).hexdigest()`: the 64-character lowercase hex digest. -/
def sha256hex (msg : List Nat) : String :=
  ⟨((sha256words msg).map wordHex).flatten⟩

/-! ## Corpus fingerprinting (`RAGSystem._get_documents_hash`) -/

/-- An incremental `hashlib` hasher: `update` appends bytes, `hexdigest` hashes
everything fed so far. -/
structure Hasher where
  acc : List Nat

/-- `hashlib.sha256()`: a fresh hasher with no bytes fed. -/
def Hasher.new : Hasher := ⟨[]⟩

/-- `hasher.update(bs)`: feed further bytes. -/
def Hasher.update (h : Hasher) (bs : List Nat) : Hasher := ⟨h.acc ++ bs⟩

/-- `hasher.hexdigest()`. -/
def Hasher.hexdigest (h : Hasher) : String := sha256hex h.acc

/-- A regular file as the directory walk sees it: a name and its byte content.
A corpus is a `List FSFile` in the order `os.walk` enumerates the files. -/
structure FSFile where
  name : String
  content : List Nat
deriving DecidableEq

/-- `RAGSystem._get_documents_hash`: walk the corpus, feed each file's full
bytes (and nothing else) to one SHA-256 hasher, return the hex digest. -/
def getDocumentsHash (files : List FSFile) : String :=
  (files.foldl (fun h f => h.update f.content) Hasher.new).hexdigest

/-! ## Build-or-load decision (`RAGSystem._build_or_load_index`) -/

/-- The ways `open(hash_file).read()` can fail. The code handles only
`FileNotFoundError`; any other `OSError` (e.g. `PermissionError`) propagates. -/
inductive ReadErr
  | fileNotFound
  | permissionDenied
deriving DecidableEq

/-- The outcome of reading a file: its text, or the error raised. -/
inductive ReadResult
  | ok (text : String)
  | err (e : ReadErr)
deriving DecidableEq

/-- The on-disk storage state `_build_or_load_index` inspects:
whether `./storage` exists, and what reading `./storage/doc_hash.sha256` yields. -/
structure StorageState where
  storageExists : Bool
  hashRead : ReadResult
deriving DecidableEq

/-- What a startup run can produce: a decision (rebuild or load), or an
uncaught exception from reading the sidecar. -/
inductive Decision
  | ok (rebuild : Bool)
  | raised (e : ReadErr)
deriving DecidableEq

/-- Lines 71–82 of `_build_or_load_index`: the rebuild decision.
If `./storage` exists, the current corpus hash is computed and compared with
the sidecar content; only `FileNotFoundError` is caught (→ rebuild); any other
read error propagates. If `./storage` does not exist, rebuild. -/
def rebuildDecision (files : List FSFile) (st : StorageState) : Decision :=
  if st.storageExists then
    let current := getDocumentsHash files
    match st.hashRead with
    | .ok saved => .ok (current != saved)
    | .err .fileNotFound => .ok true
    | .err e => .raised e
  else
    .ok true

/-- The externally visible effects of `_build_or_load_index`, in program order. -/
inductive Event
  | printRebuildNotice
  | makeStorageDir
  | buildIndex (docs : List FSFile)
  | persistIndex
  | writeFingerprint (digest : String)
  | printLoadNotice
  | loadIndex
deriving DecidableEq

/-- Lines 66–102 of `_build_or_load_index` as an event trace plus the resulting
storage state. The corpus directory is read at three distinct moments — the
decision hash (line 74), the document load (line 89) and the hash written to
the sidecar (line 95) — so each read gets its own snapshot argument. -/
def buildOrLoadIndex (decFiles buildFiles writeFiles : List FSFile) (st : StorageState) :
    Decision × List Event × StorageState :=
  match rebuildDecision decFiles st with
  | .raised e => (.raised e, [], st)
  | .ok true =>
      (.ok true,
       [.printRebuildNotice, .makeStorageDir, .buildIndex buildFiles, .persistIndex,
        .writeFingerprint (getDocumentsHash writeFiles)],
       ⟨true, .ok (getDocumentsHash writeFiles)⟩)
  | .ok false => (.ok false, [.printLoadNotice, .loadIndex], st)

/-- The fingerprints written during a trace, in order. -/
def writtenFingerprints (evs : List Event) : List String :=
  evs.filterMap fun e => match e with | .writeFingerprint d => some d | _ => none

/-- `true` iff no fingerprint write occurs before the first index persist:
scanning the trace from the start, a `writeFingerprint` may only appear after
a `persistIndex` has appeared. -/
def noFingerprintBeforePersist : List Event → Bool
  | [] => true
  | .writeFingerprint _ :: _ => false
  | .persistIndex :: _ => true
  | _ :: rest => noFingerprintBeforePersist rest

/-! ## Python strings: `str.strip()` and `str.lower()` -/

/-- The whitespace characters `str.strip()` removes (space, tab, LF, CR, VT, FF). -/
def isPySpace (c : Char) : Bool :=
  c == ' ' || c == '\t' || c == '\n' || c == '\r' || c == Char.ofNat 11 || c == Char.ofNat 12

/-- `s.strip()`: drop whitespace from both ends. -/
def pyStrip (s : List Char) : List Char :=
  ((s.dropWhile isPySpace).reverse.dropWhile isPySpace).reverse

/-- `s.lower()` (ASCII letters, which covers the sentinel words). -/
def pyLower (s : List Char) : List Char := s.map Char.toLower

/-- The characters of the sentinel word exit. -/
def exitWord : List Char := ['e', 'x', 'i', 't']

/-- The characters of the sentinel word quit. -/
def quitWord : List Char := ['q', 'u', 'i', 't']

/-! ## Query pipeline (`RAGSystem._create_query_engine`, `RAGSystem.query`) -/

/-- A retrievable chunk: its primary text and its metadata key-value pairs
(in particular the window entry holding the surrounding sentences). -/
structure Chunk where
  text : List Char
  metadata : List (List Char × List Char)
deriving DecidableEq

/-- The metadata key the source configures (`target_metadata_key="window"`). -/
def windowKey : List Char := ['w', 'i', 'n', 'd', 'o', 'w']

/-- Modelled from the spec: `MetadataReplacementPostProcessor` (a library
component, not part of this repository's sources) replaces each retrieved
chunk's primary-sentence text with its stored `window` metadata entry when
present, falling back to the existing text when the key is absent. -/
def metadataReplacement (targetKey : List Char) (c : Chunk) : Chunk :=
  { c with text := (c.metadata.lookup targetKey).getD c.text }

/-- Modelled from the spec: top-K retrieval (a library component, not part of
this repository's sources) selects the K chunks whose embeddings are most
similar to the question's embedding; similarity scores are abstracted as
natural numbers and the question's scoring function is a parameter. -/
def retrieveTopK (k : Nat) (score : Chunk → Nat) (chunks : List Chunk) : List Chunk :=
  (chunks.mergeSort (fun a b => score b ≤ score a)).take k

/-- The engine configuration built in `_create_query_engine`:
`similarity_top_k=3` and a `MetadataReplacementPostProcessor` targeting
the window metadata key. -/
structure QueryEngineConfig where
  similarityTopK : Nat
  targetMetadataKey : List Char
deriving DecidableEq

/-- `RAGSystem._create_query_engine`: K = 3, target key window. -/
def createQueryEngine : QueryEngineConfig := ⟨3, windowKey⟩

/-- `query_engine.query(question)` as configured by `_create_query_engine`:
top-K retrieval, then metadata replacement on each retrieved chunk, then the
LLM completes over the post-processed chunks and the question. -/
def engineQuery (llm : List Chunk → List Char → List Char) (score : List Char → Chunk → Nat)
    (chunks : List Chunk) (q : List Char) : List Char :=
  llm ((retrieveTopK createQueryEngine.similarityTopK (score q) chunks).map
        (metadataReplacement createQueryEngine.targetMetadataKey)) q

/-- `RAGSystem.query`: `str(response).strip()`. -/
def ragQuery (llm : List Chunk → List Char → List Char) (score : List Char → Chunk → Nat)
    (chunks : List Chunk) (q : List Char) : List Char :=
  pyStrip (engineQuery llm score chunks q)

/-! ## Interactive session loop (`__main__`, lines 132–143) -/

/-- What one `input()` call produces: a line, or an end-of-input `EOFError`. -/
inductive InputEvent
  | line (s : List Char)
  | eofError
deriving DecidableEq

/-- What `rag.query` produces: an answer string, or a raised exception
(backend/network failure) carrying its message. -/
inductive QueryOutcome
  | answer (s : List Char)
  | failure (msg : List Char)
deriving DecidableEq

/-- The state the loop holds across iterations: the `rag` object's engine
handle. The loop body never reassigns it. -/
structure SessionState (E : Type) where
  engine : E
deriving DecidableEq

/-- The lines the loop body prints. -/
inductive OutMsg
  | aiResponse (s : List Char)
  | errorMsg (s : List Char)
  | hintMsg
deriving DecidableEq

/-- The outcome of one loop iteration: `break` out of the loop, or continue
with a state, the printed output, and the question passed to `rag.query`
(if any). -/
inductive StepResult (E : Type)
  | exitLoop
  | next (st : SessionState E) (outs : List OutMsg) (queried : Option (List Char))
deriving DecidableEq

/-- The question an iteration passed to `rag.query`, if any. -/
def StepResult.queried {E : Type} : StepResult E → Option (List Char)
  | .exitLoop => none
  | .next _ _ q => q

/-- The message `str(e)` of the `EOFError` raised by `input()` at end of input. -/
def eofErrorText : List Char :=
  "EOF when reading a line".toList

/-- One iteration of the `while True` loop: read input (whose `EOFError` is
reached by the catch-all `except Exception` handler, printing the error and
the hint), break on a sentinel, otherwise run `rag.query` and either print
the answer or catch the raised exception and print the error and the hint. -/
def sessionStep {E : Type} (runQuery : E → List Char → QueryOutcome)
    (st : SessionState E) (ev : InputEvent) : StepResult E :=
  match ev with
  | .eofError => .next st [.errorMsg eofErrorText, .hintMsg] none
  | .line s =>
      if pyLower s = exitWord ∨ pyLower s = quitWord then
        .exitLoop
      else
        match runQuery st.engine s with
        | .answer a => .next st [.aiResponse a] (some s)
        | .failure m => .next st [.errorMsg m, .hintMsg] (some s)

/-! ## Hash lemmas -/

/-- Folding `update` over the corpus accumulates exactly the concatenation of
the file contents, in walk order. -/
theorem foldl_update_acc (files : List FSFile) (h : Hasher) :
    (files.foldl (fun h f => h.update f.content) h).acc =
      h.acc ++ (files.map FSFile.content).flatten := by
  induction files generalizing h with
  | nil => simp
  | cons f t ih => rw [List.foldl_cons, ih]; simp [Hasher.update]

/-- `_get_documents_hash` is SHA-256 of the concatenated file bytes. -/
theorem getDocumentsHash_eq (files : List FSFile) :
    getDocumentsHash files = sha256hex ((files.map FSFile.content).flatten) := by
  simp [getDocumentsHash, Hasher.hexdigest, foldl_update_acc, Hasher.new]

/-! ## Claim theorems -/

/-- C9: the corpus fingerprint is a function only of the concatenation of file
byte contents in traversal order: corpora with equal concatenated bytes get
equal digests, regardless of names, file count, or boundary placement. -/
theorem fingerprint_function_of_joined_bytes (c1 c2 : List FSFile)
    (h : (c1.map FSFile.content).flatten = (c2.map FSFile.content).flatten) :
    getDocumentsHash c1 = getDocumentsHash c2 := by
  rw [getDocumentsHash_eq, getDocumentsHash_eq, h]

theorem fingerprint_function_of_joined_bytes_witness :
    ((([⟨"a", [1, 2]⟩, ⟨"b", [3]⟩] : List FSFile).map FSFile.content).flatten =
      (([⟨"x", [1]⟩, ⟨"y", [2]⟩, ⟨"z", [3]⟩] : List FSFile).map FSFile.content).flatten) ∧
    getDocumentsHash [⟨"a", [1, 2]⟩, ⟨"b", [3]⟩] =
      getDocumentsHash [⟨"x", [1]⟩, ⟨"y", [2]⟩, ⟨"z", [3]⟩] :=
  ⟨by decide, fingerprint_function_of_joined_bytes _ _ (by decide)⟩

/-- C1: the build-or-load decision follows exactly the four rebuild-trigger
cases: no storage directory → rebuild; storage present but sidecar missing →
rebuild; sidecar present but mismatched → rebuild; sidecar matches → no
rebuild, and the run takes the load path. -/
theorem rebuild_trigger_cases (files : List FSFile) (st : StorageState) :
    (st.storageExists = false → rebuildDecision files st = .ok true) ∧
    (st.storageExists = true → st.hashRead = .err .fileNotFound →
      rebuildDecision files st = .ok true) ∧
    (∀ saved, st.storageExists = true → st.hashRead = .ok saved →
      saved ≠ getDocumentsHash files → rebuildDecision files st = .ok true) ∧
    (∀ saved, st.storageExists = true → st.hashRead = .ok saved →
      saved = getDocumentsHash files →
      rebuildDecision files st = .ok false ∧
      ∀ b w, buildOrLoadIndex files b w st =
        (.ok false, [.printLoadNotice, .loadIndex], st)) := by
  refine ⟨fun h1 => ?_, fun h1 h2 => ?_, fun saved h1 h2 h3 => ?_, fun saved h1 h2 h3 => ?_⟩
  · simp [rebuildDecision, h1]
  · simp [rebuildDecision, h1, h2]
  · simp only [rebuildDecision, h1, h2, if_true]
    simpa [bne_iff_ne] using fun hh => h3 hh.symm
  · have hd : rebuildDecision files st = .ok false := by
      simp [rebuildDecision, h1, h2, h3]
    exact ⟨hd, fun b w => by simp [buildOrLoadIndex, hd]⟩

/-- A stored digest used in witnesses that cannot be a real SHA-256 hex digest. -/
def staleDigest : String := "stale"

theorem rebuild_trigger_cases_witness :
    rebuildDecision [] ⟨false, .err .fileNotFound⟩ = .ok true ∧
    rebuildDecision [] ⟨true, .err .fileNotFound⟩ = .ok true ∧
    rebuildDecision [] ⟨true, .ok staleDigest⟩ = .ok true ∧
    rebuildDecision [] ⟨true, .ok (getDocumentsHash [])⟩ = .ok false :=
  ⟨(rebuild_trigger_cases [] ⟨false, .err .fileNotFound⟩).1 rfl,
   (rebuild_trigger_cases [] ⟨true, .err .fileNotFound⟩).2.1 rfl rfl,
   (rebuild_trigger_cases [] ⟨true, .ok staleDigest⟩).2.2.1 staleDigest rfl rfl (by decide),
   ((rebuild_trigger_cases [] ⟨true, .ok (getDocumentsHash [])⟩).2.2.2
      (getDocumentsHash []) rfl rfl rfl).1⟩

/-- A rename with no content change: the same file contents (the same bytes
per file), under possibly different names and a possibly different walk
order — `os.walk` enumeration order is filesystem state, not preserved by
renames. -/
def renamedNoContentChange (c1 c2 : List FSFile) : Prop :=
  (c1.map FSFile.content).Perm (c2.map FSFile.content)

/-- A two-file corpus. -/
def corpusA : List FSFile := [⟨"a", [0]⟩, ⟨"b", [1]⟩]

/-- `corpusA` after renaming file a to c, with the walk now listing b first. -/
def corpusB : List FSFile := [⟨"b", [1]⟩, ⟨"c", [0]⟩]

/-- C2 counterexample: a rename with no content change that reorders the walk
changes the fingerprint, and the next startup rebuilds. -/
theorem rename_changes_fingerprint_cex :
    renamedNoContentChange corpusA corpusB ∧
    getDocumentsHash corpusA ≠ getDocumentsHash corpusB ∧
    rebuildDecision corpusB ⟨true, .ok (getDocumentsHash corpusA)⟩ = .ok true :=
  ⟨by simpa [renamedNoContentChange, corpusA, corpusB] using List.Perm.swap [1] [0] [],
   by decide, by decide⟩

/-- C2 amended: a rename that leaves each traversal position's byte content
unchanged (contents pointwise equal in walk order) keeps the fingerprint
unchanged, and the next startup loads instead of rebuilding. -/
theorem rename_preserving_order_is_noop (c1 c2 : List FSFile)
    (h : c1.map FSFile.content = c2.map FSFile.content) :
    getDocumentsHash c1 = getDocumentsHash c2 ∧
    rebuildDecision c2 ⟨true, .ok (getDocumentsHash c1)⟩ = .ok false := by
  have hh : getDocumentsHash c1 = getDocumentsHash c2 := by
    rw [getDocumentsHash_eq, getDocumentsHash_eq, h]
  refine ⟨hh, ?_⟩
  simp [rebuildDecision, hh]

theorem rename_preserving_order_is_noop_witness :
    ((([⟨"old", [7]⟩] : List FSFile).map FSFile.content) =
      (([⟨"new", [7]⟩] : List FSFile).map FSFile.content)) ∧
    getDocumentsHash [⟨"old", [7]⟩] = getDocumentsHash [⟨"new", [7]⟩] ∧
    rebuildDecision [⟨"new", [7]⟩] ⟨true, .ok (getDocumentsHash [⟨"old", [7]⟩])⟩ = .ok false :=
  ⟨by decide, (rename_preserving_order_is_noop _ _ (by decide)).1,
   (rename_preserving_order_is_noop _ _ (by decide)).2⟩

/-- C3 counterexample: a sidecar whose read raises a `PermissionError` does
not yield a rebuild decision; the error propagates out of startup. -/
theorem unreadable_sidecar_fatal_cex :
    rebuildDecision [] ⟨true, .err .permissionDenied⟩ ≠ .ok true ∧
    rebuildDecision [] ⟨true, .err .permissionDenied⟩ = .raised .permissionDenied :=
  ⟨by decide, by decide⟩

/-- C3 amended: only an absent sidecar (`FileNotFoundError`) is treated as
"must rebuild"; any other read failure (e.g. a permission error) propagates
uncaught and is fatal to startup. -/
theorem sidecar_read_error_handling (files : List FSFile) (st : StorageState)
    (hst : st.storageExists = true) :
    (st.hashRead = .err .fileNotFound → rebuildDecision files st = .ok true) ∧
    (∀ e, e ≠ ReadErr.fileNotFound → st.hashRead = .err e →
      rebuildDecision files st = .raised e) := by
  refine ⟨fun h => by simp [rebuildDecision, hst, h], fun e he h => ?_⟩
  cases e with
  | fileNotFound => exact absurd rfl he
  | permissionDenied => simp [rebuildDecision, hst, h]

theorem sidecar_read_error_handling_witness :
    rebuildDecision [] ⟨true, .err .fileNotFound⟩ = .ok true ∧
    rebuildDecision [] ⟨true, .err .permissionDenied⟩ = .raised .permissionDenied :=
  ⟨(sidecar_read_error_handling [] ⟨true, .err .fileNotFound⟩ rfl).1 rfl,
   (sidecar_read_error_handling [] ⟨true, .err .permissionDenied⟩ rfl).2
     .permissionDenied (by decide) rfl⟩

/-- C4: freshness idempotence — with the corpus unchanged, a first run that
rebuilds persists the index and the fingerprint, and the second run chooses
the load path instead of rebuilding. -/
theorem second_run_is_fresh (files : List FSFile) (st : StorageState)
    (h : rebuildDecision files st = .ok true) :
    buildOrLoadIndex files files files st =
      (.ok true,
       [.printRebuildNotice, .makeStorageDir, .buildIndex files, .persistIndex,
        .writeFingerprint (getDocumentsHash files)],
       ⟨true, .ok (getDocumentsHash files)⟩) ∧
    buildOrLoadIndex files files files ⟨true, .ok (getDocumentsHash files)⟩ =
      (.ok false, [.printLoadNotice, .loadIndex], ⟨true, .ok (getDocumentsHash files)⟩) := by
  constructor
  · simp [buildOrLoadIndex, h]
  · simp [buildOrLoadIndex, rebuildDecision]

theorem second_run_is_fresh_witness :
    buildOrLoadIndex [] [] [] ⟨false, .err .fileNotFound⟩ =
      (.ok true,
       [.printRebuildNotice, .makeStorageDir, .buildIndex [], .persistIndex,
        .writeFingerprint (getDocumentsHash [])],
       ⟨true, .ok (getDocumentsHash [])⟩) ∧
    buildOrLoadIndex [] [] [] ⟨true, .ok (getDocumentsHash [])⟩ =
      (.ok false, [.printLoadNotice, .loadIndex], ⟨true, .ok (getDocumentsHash [])⟩) :=
  ⟨(second_run_is_fresh [] ⟨false, .err .fileNotFound⟩ (by decide)).1,
   (second_run_is_fresh [] ⟨false, .err .fileNotFound⟩ (by decide)).2⟩

/-- The corpus as read when the staleness decision ran. -/
def corpusAtDecision : List FSFile := [⟨"d", [0]⟩]

/-- The corpus as read when the sidecar was written, after an edit landed
mid-rebuild. -/
def corpusAtWrite : List FSFile := [⟨"d", [1]⟩]

/-- C5 counterexample: the fingerprint written on the rebuild path is
recomputed from the corpus at write time, not the value computed during the
staleness decision — the two differ when the corpus changes mid-rebuild. -/
theorem written_fingerprint_recomputed_cex :
    writtenFingerprints
        (buildOrLoadIndex corpusAtDecision corpusAtDecision corpusAtWrite
          ⟨false, .err .fileNotFound⟩).2.1 =
      [getDocumentsHash corpusAtWrite] ∧
    getDocumentsHash corpusAtWrite ≠ getDocumentsHash corpusAtDecision :=
  ⟨by decide, by decide⟩

/-- C5 amended: on the rebuild path the index is persisted before the
fingerprint record is written (no fingerprint write precedes the persist),
and the fingerprint written is recomputed from the corpus at write time — it
equals the decision-time fingerprint whenever the corpus bytes are unchanged
between the decision and the write. -/
theorem persist_before_fingerprint (dec b w : List FSFile) (st : StorageState)
    (h : rebuildDecision dec st = .ok true) :
    noFingerprintBeforePersist (buildOrLoadIndex dec b w st).2.1 = true ∧
    Event.persistIndex ∈ (buildOrLoadIndex dec b w st).2.1 ∧
    writtenFingerprints (buildOrLoadIndex dec b w st).2.1 = [getDocumentsHash w] ∧
    (w = dec →
      writtenFingerprints (buildOrLoadIndex dec b w st).2.1 = [getDocumentsHash dec]) := by
  refine ⟨?_, ?_, ?_, fun hw => ?_⟩ <;>
    simp [buildOrLoadIndex, h, writtenFingerprints, noFingerprintBeforePersist]
  rw [hw]

theorem persist_before_fingerprint_witness :
    noFingerprintBeforePersist
        (buildOrLoadIndex [] [] [] ⟨false, .err .fileNotFound⟩).2.1 = true ∧
    Event.persistIndex ∈ (buildOrLoadIndex [] [] [] ⟨false, .err .fileNotFound⟩).2.1 ∧
    writtenFingerprints (buildOrLoadIndex [] [] [] ⟨false, .err .fileNotFound⟩).2.1 =
      [getDocumentsHash []] :=
  ⟨(persist_before_fingerprint [] [] [] ⟨false, .err .fileNotFound⟩ (by decide)).1,
   (persist_before_fingerprint [] [] [] ⟨false, .err .fileNotFound⟩ (by decide)).2.1,
   (persist_before_fingerprint [] [] [] ⟨false, .err .fileNotFound⟩ (by decide)).2.2.2 rfl⟩

/-! ## `pyStrip` lemmas -/

/-- The head of what `dropWhile` leaves does not satisfy the predicate. -/
theorem head?_dropWhile_not {α : Type} {p : α → Bool} {l : List α} {c : α}
    (h : (l.dropWhile p).head? = some c) : p c = false := by
  induction l with
  | nil => simp [List.dropWhile] at h
  | cons a t ih =>
    rw [List.dropWhile_cons] at h
    by_cases hp : p a
    · rw [if_pos hp] at h; exact ih h
    · rw [if_neg hp] at h
      simp only [List.head?_cons, Option.some.injEq] at h
      subst h
      simpa using hp

/-- The stripped string is an initial segment of the left-stripped string. -/
theorem pyStrip_append_eq (s : List Char) :
    pyStrip s ++ (((s.dropWhile isPySpace).reverse.takeWhile isPySpace).reverse) =
      s.dropWhile isPySpace := by
  rw [pyStrip, ← List.reverse_append, List.takeWhile_append_dropWhile, List.reverse_reverse]

/-- A nonempty stripped string does not start with whitespace. -/
theorem pyStrip_head_not_space {s : List Char} {c : Char}
    (h : (pyStrip s).head? = some c) : isPySpace c = false := by
  have h2 : (s.dropWhile isPySpace).head? = some c := by
    rw [← pyStrip_append_eq s, List.head?_append, h]; rfl
  exact head?_dropWhile_not h2

/-- A nonempty stripped string does not end with whitespace. -/
theorem pyStrip_getLast_not_space {s : List Char} {c : Char}
    (h : (pyStrip s).getLast? = some c) : isPySpace c = false := by
  rw [pyStrip, List.getLast?_reverse] at h
  exact head?_dropWhile_not h

/-! ## Query pipeline and session theorems -/

/-- C7: the query pipeline retrieves the top-3 chunks by similarity (the
retrieved chunks are 3 of the corpus's highest-scoring ones), replaces each
retrieved chunk's primary text with its stored window metadata before the LLM
sees it, and returns the completion stripped of surrounding whitespace. -/
theorem query_pipeline_contract (llm : List Chunk → List Char → List Char)
    (score : List Char → Chunk → Nat) (chunks : List Chunk) (q : List Char) :
    (retrieveTopK 3 (score q) chunks).length = min 3 chunks.length ∧
    (∃ rest, (retrieveTopK 3 (score q) chunks ++ rest).Perm chunks ∧
      ∀ a ∈ retrieveTopK 3 (score q) chunks, ∀ b ∈ rest, score q b ≤ score q a) ∧
    (∀ c w, c.metadata.lookup windowKey = some w →
      (metadataReplacement createQueryEngine.targetMetadataKey c).text = w) ∧
    ragQuery llm score chunks q =
      pyStrip (llm ((retrieveTopK 3 (score q) chunks).map
        (metadataReplacement windowKey)) q) ∧
    (∀ ch, (ragQuery llm score chunks q).head? = some ch → isPySpace ch = false) ∧
    (∀ ch, (ragQuery llm score chunks q).getLast? = some ch → isPySpace ch = false) := by
  have hperm := List.mergeSort_perm chunks (fun a b => score q b ≤ score q a)
  refine ⟨?_, ⟨(chunks.mergeSort (fun a b => score q b ≤ score q a)).drop 3, ?_, ?_⟩,
    ?_, rfl, fun ch h => pyStrip_head_not_space h, fun ch h => pyStrip_getLast_not_space h⟩
  · simp [retrieveTopK, hperm.length_eq]
  · rw [retrieveTopK, List.take_append_drop]; exact hperm
  · have hsorted : List.Pairwise (fun a b => (decide (score q b ≤ score q a)) = true)
        (chunks.mergeSort (fun a b => score q b ≤ score q a)) :=
      List.sorted_mergeSort
        (fun a b c hab hbc => by
          simp only [decide_eq_true_eq] at hab hbc ⊢; exact le_trans hbc hab)
        (fun a b => by
          simp only [Bool.or_eq_true, decide_eq_true_eq]
          exact Nat.le_total (score q b) (score q a))
        chunks
    have hsorted2 : List.Pairwise (fun a b => (decide (score q b ≤ score q a)) = true)
        ((chunks.mergeSort (fun a b => score q b ≤ score q a)).take 3 ++
         (chunks.mergeSort (fun a b => score q b ≤ score q a)).drop 3) := by
      rw [List.take_append_drop]; exact hsorted
    intro a ha b hb
    rw [retrieveTopK] at ha
    have := (List.pairwise_append.mp hsorted2).2.2 a ha b hb
    simpa using this
  · intro c w h
    simp [metadataReplacement, createQueryEngine, h]

/-- A concrete chunk whose metadata holds a window entry. -/
def chunkW (t : List Char) : Chunk :=
  ⟨t, [(windowKey, t ++ ['!'])]⟩

theorem query_pipeline_contract_witness :
    metadataReplacement windowKey (chunkW ['b', 'b']) =
      ⟨['b', 'b', '!'], [(windowKey, ['b', 'b', '!'])]⟩ ∧
    pyStrip [' ', 'o', 'k', ' '] = ['o', 'k'] ∧
    (retrieveTopK 3 ((fun _ c => c.text.length) ['q']) [chunkW ['a'], chunkW ['b', 'b']]).length =
      min 3 ([chunkW ['a'], chunkW ['b', 'b']] : List Chunk).length ∧
    ragQuery (fun _ _ => [' ', 'o', 'k', ' ']) (fun _ c => c.text.length)
        [chunkW ['a'], chunkW ['b', 'b']] ['q'] =
      pyStrip ((fun (_ : List Chunk) (_ : List Char) => [' ', 'o', 'k', ' '])
        ((retrieveTopK 3 ((fun _ c => c.text.length) ['q']) [chunkW ['a'], chunkW ['b', 'b']]).map
          (metadataReplacement windowKey)) ['q']) :=
  ⟨by decide, by decide,
   (query_pipeline_contract (fun _ _ => [' ', 'o', 'k', ' ']) (fun _ c => c.text.length)
     [chunkW ['a'], chunkW ['b', 'b']] ['q']).1,
   (query_pipeline_contract (fun _ _ => [' ', 'o', 'k', ' ']) (fun _ c => c.text.length)
     [chunkW ['a'], chunkW ['b', 'b']] ['q']).2.2.2.1⟩

/-- C6: a query that raises is caught at the loop — the error and the hint are
printed, the loop continues with the same held engine handle, and a subsequent
query runs against that same handle. -/
theorem query_failure_resilience {E : Type} (runQuery : E → List Char → QueryOutcome)
    (st : SessionState E) (s m : List Char)
    (hs : ¬(pyLower s = exitWord ∨ pyLower s = quitWord))
    (hf : runQuery st.engine s = .failure m) :
    sessionStep runQuery st (.line s) = .next st [.errorMsg m, .hintMsg] (some s) ∧
    ∀ s2 a, ¬(pyLower s2 = exitWord ∨ pyLower s2 = quitWord) →
      runQuery st.engine s2 = .answer a →
      sessionStep runQuery st (.line s2) = .next st [.aiResponse a] (some s2) := by
  constructor
  · simp [sessionStep, hs, hf]
  · intro s2 a h2 ha; simp [sessionStep, h2, ha]

theorem query_failure_resilience_witness :
    sessionStep
        (fun (_ : Nat) (q : List Char) =>
          if q = ['b'] then QueryOutcome.failure ['m'] else QueryOutcome.answer ['a'])
        ⟨0⟩ (.line ['b']) = .next ⟨0⟩ [.errorMsg ['m'], .hintMsg] (some ['b']) ∧
    sessionStep
        (fun (_ : Nat) (q : List Char) =>
          if q = ['b'] then QueryOutcome.failure ['m'] else QueryOutcome.answer ['a'])
        ⟨0⟩ (.line ['c']) = .next ⟨0⟩ [.aiResponse ['a']] (some ['c']) :=
  ⟨(query_failure_resilience _ ⟨0⟩ ['b'] ['m'] (by decide) (by decide)).1,
   (query_failure_resilience _ ⟨0⟩ ['b'] ['m'] (by decide) (by decide)).2
     ['c'] ['a'] (by decide) (by decide)⟩

/-- C8: an input whose lowercase form is exit or quit terminates the session
without running a query; any other input is passed to the query pipeline. -/
theorem sentinel_inputs {E : Type} (runQuery : E → List Char → QueryOutcome)
    (st : SessionState E) (s : List Char) :
    ((pyLower s = exitWord ∨ pyLower s = quitWord) →
      sessionStep runQuery st (.line s) = .exitLoop ∧
      (sessionStep runQuery st (.line s)).queried = none) ∧
    (¬(pyLower s = exitWord ∨ pyLower s = quitWord) →
      (sessionStep runQuery st (.line s)).queried = some s) := by
  constructor
  · intro h; simp [sessionStep, h, StepResult.queried]
  · intro h
    simp only [sessionStep, if_neg h]
    cases runQuery st.engine s <;> simp [StepResult.queried]

theorem sentinel_inputs_witness :
    (sessionStep (fun (_ : Nat) (_ : List Char) => QueryOutcome.answer []) ⟨0⟩
        (.line ['Q', 'U', 'i', 'T']) = .exitLoop) ∧
    (sessionStep (fun (_ : Nat) (_ : List Char) => QueryOutcome.answer []) ⟨0⟩
        (.line ['h', 'i'])).queried = some ['h', 'i'] :=
  ⟨((sentinel_inputs (fun (_ : Nat) (_ : List Char) => QueryOutcome.answer []) ⟨0⟩
      ['Q', 'U', 'i', 'T']).1 (by decide)).1,
   (sentinel_inputs (fun (_ : Nat) (_ : List Char) => QueryOutcome.answer []) ⟨0⟩
      ['h', 'i']).2 (by decide)⟩

/-- C10: the loop exits only on a sentinel input; every modelled exception of
the loop body — including the `EOFError` of exhausted input — is caught by
the catch-all handler and the loop continues. -/
theorem loop_exit_only_on_sentinel {E : Type} (runQuery : E → List Char → QueryOutcome)
    (st : SessionState E) (ev : InputEvent) :
    (sessionStep runQuery st ev = .exitLoop ↔
      ∃ s, ev = .line s ∧ (pyLower s = exitWord ∨ pyLower s = quitWord)) ∧
    sessionStep runQuery st .eofError =
      .next st [.errorMsg eofErrorText, .hintMsg] none := by
  refine ⟨?_, rfl⟩
  cases ev with
  | eofError =>
      simp only [sessionStep]
      constructor
      · intro h; cases h
      · rintro ⟨s, h, -⟩; cases h
  | line s =>
      by_cases h : pyLower s = exitWord ∨ pyLower s = quitWord
      · simp [sessionStep, h]
      · simp only [sessionStep, if_neg h]
        constructor
        · intro hc; cases hq : runQuery st.engine s <;> rw [hq] at hc <;> cases hc
        · rintro ⟨s2, hs2, hsent⟩
          cases hs2; exact absurd hsent h

theorem loop_exit_only_on_sentinel_witness :
    sessionStep (fun (_ : Nat) (_ : List Char) => QueryOutcome.answer []) ⟨0⟩ .eofError =
      .next ⟨0⟩ [.errorMsg eofErrorText, .hintMsg] none ∧
    sessionStep (fun (_ : Nat) (_ : List Char) => QueryOutcome.answer []) ⟨0⟩
      (.line ['e', 'x', 'i', 't']) = .exitLoop :=
  ⟨(loop_exit_only_on_sentinel (fun (_ : Nat) (_ : List Char) => QueryOutcome.answer [])
      ⟨0⟩ .eofError).2,
   (loop_exit_only_on_sentinel (fun (_ : Nat) (_ : List Char) => QueryOutcome.answer [])
      ⟨0⟩ (.line ['e', 'x', 'i', 't'])).1.mpr ⟨['e', 'x', 'i', 't'], rfl, by decide⟩⟩

end RagChat
